import Mathlib

/-!
Verification development for the audio capture and analysis engine of
QtMeter (file qtmAudioRxThread.py, class qtmAudioRxThread).

The Python source is shallowly embedded: pure fragments become Lean
functions; stateful fragments become explicit state passing over record
types; Python machine integers become Nat/Int; Python floats used for
exact small-integer arithmetic become ℚ (all the concrete values involved
are exactly representable in IEEE doubles, so the rational model agrees
with the float execution); calls into external libraries (pyaudio capture,
scipy filter design and filtering, numpy FFT) are abstracted: their
results enter the model as explicit inputs, while every piece of control
flow and state update of the repository code itself is translated
faithfully.
-/

namespace QtMeter

/-!
Floating-point sample values.

Filtered sample data in the source can contain IEEE special values
(NaN, plus or minus infinity) when a badly configured scipy filter is
applied. We model an IEEE double as either a finite value (an exact
rational) or one of the special values. Only the NaN-propagation and
comparison behaviour used by the source (numpy min/max and isnan) is
needed.
-/

/-- Model of an IEEE double sample value: finite (exact rational), NaN,
or a signed infinity. -/
inductive FVal where
  | fin (q : ℚ)
  | nan
  | inf
  | ninf
deriving DecidableEq

/-- Model of numpy.isnan on a single value. -/
def FVal.isNaN : FVal → Bool
  | .nan => true
  | _ => false

/-- Two-argument minimum with numpy semantics: NaN propagates, the
infinities compare as extreme elements. -/
def npMinPair : FVal → FVal → FVal
  | .nan, _ => .nan
  | _, .nan => .nan
  | .ninf, _ => .ninf
  | _, .ninf => .ninf
  | .inf, y => y
  | x, .inf => x
  | .fin a, .fin b => .fin (min a b)

/-- Two-argument maximum with numpy semantics: NaN propagates, the
infinities compare as extreme elements. -/
def npMaxPair : FVal → FVal → FVal
  | .nan, _ => .nan
  | _, .nan => .nan
  | .inf, _ => .inf
  | _, .inf => .inf
  | .ninf, y => y
  | x, .ninf => x
  | .fin a, .fin b => .fin (max a b)

/-- Model of np.min over a sample array (np.min raises on an empty
array; the source only applies it to full FFT frames, so the empty
case is given a harmless default). -/
def npMin : List FVal → FVal
  | [] => .nan
  | x :: xs => xs.foldl npMinPair x

/-- Model of np.max over a sample array (same conventions as npMin). -/
def npMax : List FVal → FVal
  | [] => .nan
  | x :: xs => xs.foldl npMaxPair x

/-- Embedding of qtmAudioRxThread.__verify_filtered_data: compute the
minimum and maximum of the filtered frame and, when either is NaN, emit
the showBadFilterMessage signal. The returned Bool is true exactly when
the signal is emitted. -/
def verifyFilteredData (filteredSamples : List FVal) : Bool :=
  (npMin filteredSamples).isNaN || (npMax filteredSamples).isNaN

/-- Presence of the filter coefficient vectors filterA / filterB built by
qtmAudioRxThread.__create_sample_filter. The source stores two optional
coefficient arrays; their joint presence selects the filtering call. -/
inductive SampleFilter where
  | passthrough
  | filtfiltAB
  | sosA
deriving DecidableEq

/-- Embedding of qtmAudioRxThread.__apply_any_filter. The numeric output
of scipy.signal.filtfilt / scipy.signal.sosfilt is external library code
and enters the model as the explicit argument filterOutput; the
repository code merely selects which branch runs and whether
__verify_filtered_data is invoked. Returns the filteredSamples member
and whether the bad-filter notification was emitted. -/
def applyAnyFilter (coeffs : SampleFilter) (frameSamples filterOutput : List FVal) :
    List FVal × Bool :=
  match coeffs with
  | .filtfiltAB => (filterOutput, verifyFilteredData filterOutput)
  | .sosA => (filterOutput, verifyFilteredData filterOutput)
  | .passthrough => (frameSamples, false)

/-- The running FFT magnitude-sum accumulator of __do_FFT, modelled by
provenance: fftSumContribs lists, oldest first, the filtered frames whose
magnitude spectra have been summed into fftSum, and accumFFTSums is the
transform count exactly as in the source. The elementwise numeric sum of
np.abs(np.fft.rfft(...)) outputs is abstracted to the list of contributing
frames, because the claims under study concern which frames contribute,
not the numeric bin values. -/
structure FFTAccum where
  fftSumContribs : List (List FVal)
  accumFFTSums : ℕ
deriving DecidableEq

/-- Embedding of the accumulation step of __do_FFT (the block guarded by
"Sum them"): on the first contribution since the last drain the sum is
initialized from the new spectrum, otherwise the new spectrum is added
elementwise; the count increments in both branches. -/
def accumFFTStep (filteredSamples : List FVal) (acc : FFTAccum) : FFTAccum :=
  if acc.accumFFTSums = 0 then
    { fftSumContribs := [filteredSamples], accumFFTSums := 1 }
  else
    { fftSumContribs := acc.fftSumContribs ++ [filteredSamples],
      accumFFTSums := acc.accumFFTSums + 1 }

/-- Embedding of one iteration of the frame loop of __do_FFT from the
point where the window function has been applied: apply the configured
filter (emitting the diagnostic notification when __verify_filtered_data
detects NaN), then compute the magnitude spectrum of the filtered frame
and add it into the running accumulator. Returns the new accumulator and
whether the notification was emitted. The source performs these steps
unconditionally in sequence; no branch skips the accumulation. -/
def doFFTFrame (coeffs : SampleFilter) (frameSamples filterOutput : List FVal)
    (acc : FFTAccum) : FFTAccum × Bool :=
  let fe := applyAnyFilter coeffs frameSamples filterOutput
  (accumFFTStep fe.1 acc, fe.2)

/-!
Amplitude tracker (the rolling mean-amplitude window).

State fields mirror sampleFrameAmplitudes, nSampleFrameAmplitudes and
sumSampleFrameAmplitudes of qtmAudioRxThread. Amplitudes are mean
absolute sample values; the arithmetic on them is modelled exactly
over ℚ.
-/

/-- The rolling amplitude window state of qtmAudioRxThread. -/
structure AmpState where
  sampleFrameAmplitudes : List ℚ
  nSampleFrameAmplitudes : ℕ
  sumSampleFrameAmplitudes : ℚ
deriving DecidableEq

/-- Embedding of __reset_stream_amplitude. -/
def resetStreamAmplitude : AmpState :=
  { sampleFrameAmplitudes := []
    nSampleFrameAmplitudes := 0
    sumSampleFrameAmplitudes := 0 }

/-- Embedding of the eviction loop at the head of __add_stream_amplitude:
while the count has reached the configured cap (meanSampleFrames),
subtract the oldest amplitude from the running sum and delete it. The
loop is structural on the list; when the list is empty but the count has
reached the cap the source would raise IndexError, a state unreachable
because the count always equals the list length. -/
def evictOldAmplitudes (meanSampleFrames : ℕ) :
    List ℚ → ℕ → ℚ → List ℚ × ℕ × ℚ
  | [], n, s => ([], n, s)
  | a :: rest, n, s =>
    if meanSampleFrames ≤ n then
      evictOldAmplitudes meanSampleFrames rest (n - 1) (s - a)
    else (a :: rest, n, s)

/-- Embedding of __add_stream_amplitude: evict oldest entries while at or
above the cap, then append the new amplitude to the list and to the
running sum. -/
def addStreamAmplitude (meanSampleFrames : ℕ) (frameAmplitude : ℚ)
    (st : AmpState) : AmpState :=
  let r := evictOldAmplitudes meanSampleFrames st.sampleFrameAmplitudes
      st.nSampleFrameAmplitudes st.sumSampleFrameAmplitudes
  { sampleFrameAmplitudes := r.1 ++ [frameAmplitude]
    nSampleFrameAmplitudes := r.2.1 + 1
    sumSampleFrameAmplitudes := r.2.2 + frameAmplitude }

/-- A sequence of pushes into the amplitude window starting from the
reset state, as performed by the capture loop in run(). -/
def runAmplitudes (meanSampleFrames : ℕ) (amps : List ℚ) : AmpState :=
  amps.foldl (fun st a => addStreamAmplitude meanSampleFrames a st)
    resetStreamAmplitude

/-- Embedding of __current_mean_amplitude: running sum over count when
any data exists, else the sentinel 1.0. -/
def currentMeanAmplitude (st : AmpState) : ℚ :=
  if 0 < st.nSampleFrameAmplitudes then
    st.sumSampleFrameAmplitudes / (st.nSampleFrameAmplitudes : ℚ)
  else 1

/-- Embedding of the current_dB property: the mean amplitude relative to
the peak sample value in dB, with a fixed floor of -90 when either the
mean or the peak is exactly zero (the source comments that zero would
raise from the ratio or from log10). math.log10 is modelled by
Real.logb 10. -/
noncomputable def current_dB (st : AmpState) (PEAK : ℚ) : ℝ :=
  if currentMeanAmplitude st = 0 ∨ PEAK = 0 then -90
  else 20 * Real.logb 10 ((currentMeanAmplitude st : ℝ) / (PEAK : ℝ))

/-!
The FFT sample stream and spectrum accumulator state machine.

The fields mirror the members of qtmAudioRxThread used by __do_FFT,
__drop_redundant_samples, __add_fft_stream_samples, fft_data and
fft_freqs. The sample buffer itself is represented by its length
nSampleStream (sample values play no role in the indexing and
bookkeeping claims); the frequency table xFreq is represented by the
pair (bin count, rate) it was built from by np.fft.rfftfreq.
totalAppended and totalTransforms are ghost fields recording the total
number of samples ever placed in the buffer and the total number of
FFT transforms ever performed; the source does not store them but they
are needed to state the claims.
-/

/-- State of the FFT sample stream and spectrum accumulator. -/
structure FFTStreamState where
  nSampleStream : ℤ
  fftActiveStart : ℤ
  accumFFTSums : ℕ
  fftSumPresent : Bool
  xFreq : Option (ℤ × ℕ)
  lastBinCount : ℤ
  lastRate : ℕ
  totalAppended : ℤ
  totalTransforms : ℕ
deriving DecidableEq

/-- Embedding of __create_bin_frequency_data_for_FFT: rebuild the
frequency table only when the requested bin count or the sample rate
differs from the ones last built. -/
def createBinFrequencyData (RATE : ℕ) (fftBinCount : ℤ) (st : FFTStreamState) :
    FFTStreamState :=
  if fftBinCount ≠ st.lastBinCount ∨ st.lastRate ≠ RATE then
    { st with xFreq := some (fftBinCount, RATE)
              lastRate := RATE
              lastBinCount := fftBinCount }
  else st

/-- Embedding of the magnitude-sum accumulation block of __do_FFT: the
first contribution since a drain initializes fftSum, later ones add into
it; the transform count increments either way. totalTransforms is the
ghost total. -/
def accumFFTSumStep (st : FFTStreamState) : FFTStreamState :=
  if st.accumFFTSums = 0 then
    { st with fftSumPresent := true, accumFFTSums := 1,
              totalTransforms := st.totalTransforms + 1 }
  else
    { st with accumFFTSums := st.accumFFTSums + 1,
              totalTransforms := st.totalTransforms + 1 }

/-- The per-frame state effect of one iteration of the frame loop of
__do_FFT: rebuild the bin frequency table for int(F / 2) + 1 bins,
accumulate the magnitude spectrum, and record the next frame start
(start + F - O, per __get_next_frame_limits) in fftActiveStart. -/
def fftFrameBodyStep (RATE : ℕ) (F O start : ℤ) (st : FFTStreamState) :
    FFTStreamState :=
  { accumFFTSumStep (createBinFrequencyData RATE (F / 2 + 1) st) with
    fftActiveStart := start + F - O }

/-- Embedding of the frame loop of __do_FFT. Parameters: the sample
rate, the FFT frame size F (= int(tFFTUnit * RATE) in the source), the
overlap length O, the loop bound transformEnd computed before the loop,
and the current frame start. Each iteration processes the frame
[start, start + F) via fftFrameBodyStep and advances the frame start by
F - O. Returns the updated state and the list of (start, end) index
pairs of the processed frames. The hypotheses 0 < F and O < F reflect
the source configuration (the frame is a positive number of samples and
the overlap is int(0.66 * F), or 0 without a window function) and make
the loop progress. -/
def doFFTLoop (RATE : ℕ) (F O transformEnd : ℤ) (hF : 0 < F) (hFO : O < F) :
    ℤ → FFTStreamState → FFTStreamState × List (ℤ × ℤ)
  | start, st =>
    if h : start + F < transformEnd then
      ((doFFTLoop RATE F O transformEnd hF hFO (start + F - O)
          (fftFrameBodyStep RATE F O start st)).1,
       (start, start + F) ::
        (doFFTLoop RATE F O transformEnd hF hFO (start + F - O)
          (fftFrameBodyStep RATE F O start st)).2)
    else (st, [])
termination_by start _ => (transformEnd - start).toNat
decreasing_by
  all_goals omega

/-- Embedding of __drop_redundant_samples: when the active cursor has
moved past fftMinimumSampleFrame frames, and the droppable prefix is at
least one frame long, slice that prefix off the stream and shift the
cursor and length accordingly. -/
def dropRedundantSamples (F minFrame : ℤ) (st : FFTStreamState) : FFTStreamState :=
  if minFrame * F < st.fftActiveStart then
    if F ≤ st.fftActiveStart - minFrame * F then
      { st with
        nSampleStream := st.nSampleStream - (st.fftActiveStart - minFrame * F),
        fftActiveStart := st.fftActiveStart - (st.fftActiveStart - minFrame * F) }
    else st
  else st

/-- Number of samples the compaction step discards from the front of
the stream. -/
def droppedSamples (F minFrame : ℤ) (st : FFTStreamState) : ℤ :=
  st.nSampleStream - (dropRedundantSamples F minFrame st).nSampleStream

/-- Embedding of the loop phase of __do_FFT: compute the initial frame
limits per __get_initial_frame_limits (the start is the cursor minus the
overlap, clamped to zero), compute transformEnd from the count of not
yet transformed samples minus the minimum retained length, and run the
frame loop. -/
def doFFTLoopPhase (RATE : ℕ) (F O minFrame : ℤ) (hF : 0 < F) (hFO : O < F)
    (st : FFTStreamState) : FFTStreamState × List (ℤ × ℤ) :=
  doFFTLoop RATE F O ((st.nSampleStream - st.fftActiveStart) - minFrame * F)
    hF hFO (max (st.fftActiveStart - O) 0) st

/-- Embedding of __do_FFT: the frame loop followed by the compaction of
consumed history via __drop_redundant_samples. -/
def doFFT (RATE : ℕ) (F O minFrame : ℤ) (hF : 0 < F) (hFO : O < F)
    (st : FFTStreamState) : FFTStreamState × List (ℤ × ℤ) :=
  (dropRedundantSamples F minFrame (doFFTLoopPhase RATE F O minFrame hF hFO st).1,
   (doFFTLoopPhase RATE F O minFrame hF hFO st).2)

/-- Embedding of __add_fft_stream_samples: concatenate k new samples to
the stream, then, when the duration of not yet transformed whole frames
exceeds batchFFTDuration seconds, eagerly run __do_FFT. The trigger
comparison newFrames * F / RATE > batchFFTDuration is stated with the
division cleared (RATE is positive in any run); fftAciveFrame is zero
throughout the program, as in the source. -/
def appendSamplesOnly (k : ℕ) (st : FFTStreamState) : FFTStreamState :=
  { st with nSampleStream := st.nSampleStream + k,
            totalAppended := st.totalAppended + k }

def addFFTStreamSamples (RATE : ℕ) (F O minFrame batchFFTDuration : ℤ)
    (hF : 0 < F) (hFO : O < F) (k : ℕ) (st : FFTStreamState) :
    FFTStreamState × List (ℤ × ℤ) :=
  if batchFFTDuration * RATE <
      ((appendSamplesOnly k st).nSampleStream / F) * F then
    doFFT RATE F O minFrame hF hFO (appendSamplesOnly k st)
  else (appendSamplesOnly k st, [])

/-- Embedding of the fft_data property: run __do_FFT, take the
accumulated sum, then reset the sum and the transform count. The
frequency table is not touched. -/
def fftDataDrain (RATE : ℕ) (F O minFrame : ℤ) (hF : 0 < F) (hFO : O < F)
    (st : FFTStreamState) : FFTStreamState × List (ℤ × ℤ) :=
  ({ (doFFT RATE F O minFrame hF hFO st).1 with
      fftSumPresent := false, accumFFTSums := 0 },
   (doFFT RATE F O minFrame hF hFO st).2)

/-- Embedding of the fft_freqs property: return the cached frequency
table. -/
def fft_freqs (st : FFTStreamState) : Option (ℤ × ℕ) :=
  st.xFreq

/-- Embedding of __preset_fft_state run at first start with the class
defaults: the stream is preset with fftMinimumSampleFrame (= 2) frames
of zero samples, the cursor is at its initial zero, nothing has been
transformed, and no frequency table exists (lastBinCount = 0 and
lastRate = 0 as in the class initializers). -/
def initFFTStreamState (F : ℤ) : FFTStreamState :=
  { nSampleStream := 2 * F
    fftActiveStart := 0
    accumFFTSums := 0
    fftSumPresent := false
    xFreq := none
    lastBinCount := 0
    lastRate := 0
    totalAppended := 2 * F
    totalTransforms := 0 }

/-- The operations the capture thread and the consumer perform on the
FFT stream: appending a captured frame of k samples (which may eagerly
process), an explicit processing pass, and a drain via fft_data. -/
inductive FFTStreamOp where
  | append (k : ℕ)
  | process
  | drain
deriving DecidableEq

/-- Apply one operation to the stream state. -/
def runFFTOp (RATE : ℕ) (F O minFrame batchFFTDuration : ℤ) (hF : 0 < F)
    (hFO : O < F) (st : FFTStreamState) :
    FFTStreamOp → FFTStreamState × List (ℤ × ℤ)
  | .append k => addFFTStreamSamples RATE F O minFrame batchFFTDuration hF hFO k st
  | .process => doFFT RATE F O minFrame hF hFO st
  | .drain => fftDataDrain RATE F O minFrame hF hFO st

/-- Apply a sequence of operations to the stream state. -/
def runFFTOps (RATE : ℕ) (F O minFrame batchFFTDuration : ℤ) (hF : 0 < F)
    (hFO : O < F) (ops : List FFTStreamOp) (st : FFTStreamState) : FFTStreamState :=
  ops.foldl
    (fun s op => (runFFTOp RATE F O minFrame batchFFTDuration hF hFO s op).1) st

/-!
Overlap computation and window recognition (for the overlap scenario).
-/

/-- The class constant windowOverlapRatio = 0.66 (exactly representable
intent; its IEEE double rounding differs from 33/50 by less than 1e-16,
which does not change any truncation below). -/
def windowOverlapRatio : ℚ := 33 / 50

/-- Embedding of the overlap computation of __do_FFT: zero without a
window function, else int(windowOverlapRatio * F) (Python int()
truncates; the operand is nonnegative, so it is the floor). -/
def overlapLengthOf (fftFrameSize : ℤ) (hasWindowFn : Bool) : ℤ :=
  if hasWindowFn then Int.floor (windowOverlapRatio * (fftFrameSize : ℚ)) else 0

/-- Embedding of __get_next_frame_limits: advance the frame start by the
frame length minus the overlap, and recompute the end. -/
def getNextFrameLimits (fftFrameStart fftFrameLen overlapLength : ℤ) : ℤ × ℤ :=
  let s := fftFrameStart + fftFrameLen - overlapLength
  (s, s + fftFrameLen)

/-- Embedding of __get_window_function restricted to what the claims
need: whether the window name is recognized (an unrecognized name
yields None, i.e. no window). -/
def getWindowFunctionIsSome (windowName : String) : Bool :=
  match windowName with
  | "Boxcar" => true
  | "Triangular" => true
  | "Blackman" => true
  | "Hamming" => true
  | "Hann" => true
  | "Bartlett" => true
  | "Flat top" => true
  | "Parzen" => true
  | "Bohman" => true
  | "Blackman-Harris" => true
  | "Nuttall" => true
  | "Bartlett-Hann" => true
  | "Cosine" => true
  | "Exponential" => true
  | "Tukey" => true
  | "Taylor" => true
  | "Lanczos" => true
  | _ => false

/-!
Filter configuration validation (__create_sample_filter).
-/

/-- Embedding of __create_sample_filter. The scipy coefficient values
are abstracted to which coefficient vectors end up present: filtfiltAB
when both filterA and filterB are set, sosA when only filterA is set,
passthrough when both stay None. The cutoff comparisons are exactly the
ones in the source. -/
def createSampleFilter (filtType : String) (filtLowF filtHighF : ℚ)
    (nyquistFrequency : ℚ) : SampleFilter :=
  match filtType with
  | "Low pass" =>
    if 0 < filtHighF ∧ filtHighF < nyquistFrequency then .filtfiltAB
    else .passthrough
  | "High pass" =>
    if 0 < filtLowF ∧ filtLowF < nyquistFrequency then .sosA
    else .passthrough
  | "Band pass" =>
    if 0 < filtLowF ∧ filtHighF ≤ nyquistFrequency ∧ filtLowF < filtHighF then .filtfiltAB
    else .passthrough
  | "Band stop" =>
    if 0 ≤ filtLowF ∧ filtHighF ≤ nyquistFrequency ∧ filtLowF < filtHighF then .filtfiltAB
    else .passthrough
  | _ => .passthrough

/-- Modelled from the spec (for comparison with the source): the
validation rule as the specification states it, including
"band-pass/band-stop require 0 ≤ low < high ≤ Nyquist". -/
def specFilterValidates (filtType : String) (filtLowF filtHighF : ℚ)
    (nyquistFrequency : ℚ) : Bool :=
  match filtType with
  | "Low pass" => decide (0 < filtHighF ∧ filtHighF < nyquistFrequency)
  | "High pass" => decide (0 < filtLowF ∧ filtLowF < nyquistFrequency)
  | "Band pass" =>
    decide (0 ≤ filtLowF ∧ filtLowF < filtHighF ∧ filtHighF ≤ nyquistFrequency)
  | "Band stop" =>
    decide (0 ≤ filtLowF ∧ filtLowF < filtHighF ∧ filtHighF ≤ nyquistFrequency)
  | _ => false

/-!
Sample rate configuration (set_sample_rate).
-/

/-- The configuration state touched by set_sample_rate: the sample rate,
the cached Nyquist frequency, and whether the audio device and stream
are open (__audio_open). -/
structure AudioRxConfig where
  RATE : ℕ
  nyquistRate : ℕ
  audioOpen : Bool
deriving DecidableEq

/-- The class initializers: RATE = 44100, nyquistRate = int(44100 / 2),
no device open. -/
def initAudioRxConfig : AudioRxConfig :=
  { RATE := 44100, nyquistRate := 22050, audioOpen := false }

/-- Embedding of set_sample_rate: a no-op while the device is open;
otherwise, when the rate actually changes, store it and cache
int(newRate / 2) as the Nyquist frequency (the call also recomputes the
sample window and rebuilds the window function, which do not touch these
fields). -/
def setSampleRate (newRate : ℕ) (st : AudioRxConfig) : AudioRxConfig :=
  if st.audioOpen then st
  else if st.RATE ≠ newRate then
    { st with RATE := newRate, nyquistRate := newRate / 2 }
  else st

/-!
Start-of-capture initialization (__start_audio).
-/

/-- The state touched by __start_audio: device openness, the amplitude
window, the FFT sample stream with its length and the minimum retained
frame count. Sample values are carried here so that the content of the
preset stream is visible. -/
structure AudioStartState where
  audioDevOpen : Bool
  amp : AmpState
  sampleStream : List ℚ
  nSampleStream : ℤ
  fftMinimumSampleFrame : ℤ
deriving DecidableEq

/-- The class initializers relevant to __start_audio: no device, empty
amplitude data, no sample stream, fftMinimumSampleFrame = 2. -/
def initAudioStartState : AudioStartState :=
  { audioDevOpen := false
    amp := resetStreamAmplitude
    sampleStream := []
    nSampleStream := 0
    fftMinimumSampleFrame := 2 }

/-- Embedding of __fft_frame_size: int(tFFTUnit * RATE) with the class
constant tFFTUnit = 2.0. -/
def fftFrameSizeOf (RATE : ℕ) : ℤ :=
  Int.floor ((2 : ℚ) * (RATE : ℚ))

/-- Embedding of __start_audio: when no device is open, open one and
reset the tracking data: __reset_stream_amplitude empties the amplitude
window, and __preset_fft_state presets the sample stream with
fftMinimumSampleFrame frames of zero samples (not an empty stream) and
then lowers fftMinimumSampleFrame to 1. When a device is already open
the call does nothing. -/
def startAudio (RATE : ℕ) (st : AudioStartState) : AudioStartState :=
  if st.audioDevOpen then st
  else
    let fftFrameSize := fftFrameSizeOf RATE
    let n := st.fftMinimumSampleFrame * fftFrameSize
    { audioDevOpen := true
      amp := resetStreamAmplitude
      sampleStream := List.replicate n.toNat 0
      nSampleStream := n
      fftMinimumSampleFrame := 1 }

/-!
Helper lemmas: NaN propagation through the numpy min/max reductions.
-/

lemma npMinPair_nan_left (b : FVal) : npMinPair .nan b = .nan := by
  cases b <;> rfl

lemma npMinPair_nan_right (a : FVal) : npMinPair a .nan = .nan := by
  cases a <;> rfl

lemma foldl_npMinPair_nan_acc (xs : List FVal) :
    xs.foldl npMinPair .nan = .nan := by
  induction xs with
  | nil => rfl
  | cons x xs ih => simpa [npMinPair_nan_left] using ih

lemma foldl_npMinPair_nan_mem :
    ∀ (xs : List FVal) (a : FVal), FVal.nan ∈ xs →
      xs.foldl npMinPair a = .nan := by
  intro xs
  induction xs with
  | nil => intro a h; cases h
  | cons y ys ih =>
    intro a h
    rcases List.mem_cons.mp h with h1 | h2
    · subst h1
      simpa [npMinPair_nan_right] using foldl_npMinPair_nan_acc ys
    · exact ih (npMinPair a y) h2

lemma npMin_of_nan_mem (l : List FVal) (h : FVal.nan ∈ l) :
    npMin l = .nan := by
  cases l with
  | nil => cases h
  | cons x xs =>
    rcases List.mem_cons.mp h with h1 | h2
    · subst h1
      simpa [npMin] using foldl_npMinPair_nan_acc xs
    · simpa [npMin] using foldl_npMinPair_nan_mem xs x h2

lemma verifyFilteredData_of_nan_mem (l : List FVal) (h : FVal.nan ∈ l) :
    verifyFilteredData l = true := by
  simp [verifyFilteredData, npMin_of_nan_mem l h, FVal.isNaN]

/-- C1 (claim as stated is false on the code). A frame whose filtered
data is the single value NaN: the notification is emitted, but the
corrupted magnitude spectrum is nevertheless added to the running
accumulator (the contribution list becomes [[NaN]] and the transform
count becomes 1), contradicting the claim that the frame is excluded.
Moreover a frame whose filtered data contains only an infinity (also a
non-finite value) emits no notification at all, because
__verify_filtered_data tests only isnan of the extrema. -/
theorem c1_counterexample :
    (doFFTFrame .filtfiltAB [.fin 0] [.nan] ⟨[], 0⟩).2 = true ∧
    (doFFTFrame .filtfiltAB [.fin 0] [.nan] ⟨[], 0⟩).1.fftSumContribs = [[.nan]] ∧
    (doFFTFrame .filtfiltAB [.fin 0] [.nan] ⟨[], 0⟩).1.accumFFTSums = 1 ∧
    (doFFTFrame .filtfiltAB [.fin 0] [.inf] ⟨[], 0⟩).2 = false := by
  decide

/-- C1 (amended): for every frame processed by the FFT pipeline with a
filter configured, if the filtered frame contains a NaN value then the
diagnostic notification is emitted to the consumer (on each such frame),
but the magnitude spectrum of that frame is nevertheless still added to
the running magnitude-sum accumulator (the transform count increments
and the frame joins the contributions), and the processing loop
continues; frames whose only non-finite values are infinities trigger no
notification. -/
theorem c1_amended_theorem (coeffs : SampleFilter)
    (frameSamples filterOutput : List FVal) (acc : FFTAccum)
    (hc : coeffs ≠ .passthrough) (hn : FVal.nan ∈ filterOutput) :
    (doFFTFrame coeffs frameSamples filterOutput acc).2 = true ∧
    (doFFTFrame coeffs frameSamples filterOutput acc).1.accumFFTSums =
      acc.accumFFTSums + 1 ∧
    filterOutput ∈ (doFFTFrame coeffs frameSamples filterOutput acc).1.fftSumContribs := by
  have hv := verifyFilteredData_of_nan_mem filterOutput hn
  cases coeffs with
  | passthrough => exact absurd rfl hc
  | filtfiltAB =>
    refine ⟨hv, ?_, ?_⟩ <;>
      · simp only [doFFTFrame, applyAnyFilter, accumFFTStep]
        split <;> simp_all
  | sosA =>
    refine ⟨hv, ?_, ?_⟩ <;>
      · simp only [doFFTFrame, applyAnyFilter, accumFFTStep]
        split <;> simp_all

/-- Witness for c1_amended_theorem at a concrete input. -/
theorem c1_witness :
    (SampleFilter.sosA ≠ SampleFilter.passthrough ∧
      FVal.nan ∈ [FVal.fin 2, FVal.nan]) ∧
    ((doFFTFrame .sosA [.fin 1] [.fin 2, .nan] ⟨[[.fin 5]], 1⟩).2 = true ∧
     (doFFTFrame .sosA [.fin 1] [.fin 2, .nan] ⟨[[.fin 5]], 1⟩).1.accumFFTSums = 1 + 1 ∧
     [FVal.fin 2, FVal.nan] ∈
       (doFFTFrame .sosA [.fin 1] [.fin 2, .nan] ⟨[[.fin 5]], 1⟩).1.fftSumContribs) :=
  ⟨⟨by decide, by decide⟩,
    c1_amended_theorem .sosA [.fin 1] [.fin 2, .nan] ⟨[[.fin 5]], 1⟩
      (by decide) (by decide)⟩

/-!
Helper lemmas: the amplitude window eviction loop keeps the count equal
to the list length and the running sum equal to the exact list sum.
-/

lemma evictOldAmplitudes_spec (cap : ℕ) :
    ∀ (amps : List ℚ) (n : ℕ) (s : ℚ), n = amps.length → s = amps.sum →
      (evictOldAmplitudes cap amps n s).2.1 =
        (evictOldAmplitudes cap amps n s).1.length ∧
      (evictOldAmplitudes cap amps n s).2.2 =
        (evictOldAmplitudes cap amps n s).1.sum ∧
      (1 ≤ cap → (evictOldAmplitudes cap amps n s).2.1 < cap) := by
  intro amps
  induction amps with
  | nil =>
    intro n s hn hs
    subst hn; subst hs
    exact ⟨rfl, rfl, fun h => h⟩
  | cons a rest ih =>
    intro n s hn hs
    simp only [evictOldAmplitudes]
    split
    · refine ih (n - 1) (s - a) ?_ ?_
      · simp [hn]
      · rw [hs, List.sum_cons]; ring
    · refine ⟨hn, hs, fun _ => ?_⟩
      show n < cap
      omega

lemma addStreamAmplitude_spec (cap : ℕ) (amp : ℚ) (st : AmpState)
    (hn : st.nSampleFrameAmplitudes = st.sampleFrameAmplitudes.length)
    (hs : st.sumSampleFrameAmplitudes = st.sampleFrameAmplitudes.sum) :
    (addStreamAmplitude cap amp st).nSampleFrameAmplitudes =
      (addStreamAmplitude cap amp st).sampleFrameAmplitudes.length ∧
    (addStreamAmplitude cap amp st).sumSampleFrameAmplitudes =
      (addStreamAmplitude cap amp st).sampleFrameAmplitudes.sum ∧
    (1 ≤ cap → (addStreamAmplitude cap amp st).nSampleFrameAmplitudes ≤ cap) := by
  obtain ⟨h1, h2, h3⟩ := evictOldAmplitudes_spec cap st.sampleFrameAmplitudes
    st.nSampleFrameAmplitudes st.sumSampleFrameAmplitudes hn hs
  refine ⟨?_, ?_, fun hcap => ?_⟩
  · simp [addStreamAmplitude, h1]
  · simp [addStreamAmplitude, h2]
  · have := h3 hcap
    simp only [addStreamAmplitude]
    omega

lemma runAmplitudes_aux (cap : ℕ) (hcap : 1 ≤ cap) :
    ∀ (xs : List ℚ) (st : AmpState),
      st.nSampleFrameAmplitudes = st.sampleFrameAmplitudes.length →
      st.sumSampleFrameAmplitudes = st.sampleFrameAmplitudes.sum →
      st.nSampleFrameAmplitudes ≤ cap →
      ((xs.foldl (fun s a => addStreamAmplitude cap a s) st).nSampleFrameAmplitudes =
        (xs.foldl (fun s a => addStreamAmplitude cap a s) st).sampleFrameAmplitudes.length ∧
       (xs.foldl (fun s a => addStreamAmplitude cap a s) st).sumSampleFrameAmplitudes =
        (xs.foldl (fun s a => addStreamAmplitude cap a s) st).sampleFrameAmplitudes.sum ∧
       (xs.foldl (fun s a => addStreamAmplitude cap a s) st).nSampleFrameAmplitudes ≤ cap) := by
  intro xs
  induction xs with
  | nil => intro st h1 h2 h3; exact ⟨h1, h2, h3⟩
  | cons x rest ih =>
    intro st h1 h2 _
    obtain ⟨g1, g2, g3⟩ := addStreamAmplitude_spec cap x st h1 h2
    exact ih (addStreamAmplitude cap x st) g1 g2 (g3 hcap)

/-- C4: for every sequence of pushes into the amplitude tracker with a
configured cap of at least one frame (set_sample_window clamps the cap
to at least 1), the window length never exceeds the cap, the running sum
always equals the exact sum of the retained window (each eviction
subtracts exactly the evicted value, each push adds exactly the pushed
value), and therefore the running-sum mean equals the mean recomputed
from the retained window, here exactly rather than merely within
floating tolerance because the model arithmetic is exact. -/
theorem c4_theorem (meanSampleFrames : ℕ) (hcap : 1 ≤ meanSampleFrames)
    (amps : List ℚ) :
    (runAmplitudes meanSampleFrames amps).nSampleFrameAmplitudes =
      (runAmplitudes meanSampleFrames amps).sampleFrameAmplitudes.length ∧
    (runAmplitudes meanSampleFrames amps).sumSampleFrameAmplitudes =
      (runAmplitudes meanSampleFrames amps).sampleFrameAmplitudes.sum ∧
    (runAmplitudes meanSampleFrames amps).nSampleFrameAmplitudes ≤ meanSampleFrames ∧
    (runAmplitudes meanSampleFrames amps).sumSampleFrameAmplitudes /
        ((runAmplitudes meanSampleFrames amps).nSampleFrameAmplitudes : ℚ) =
      (runAmplitudes meanSampleFrames amps).sampleFrameAmplitudes.sum /
        ((runAmplitudes meanSampleFrames amps).sampleFrameAmplitudes.length : ℚ) := by
  obtain ⟨h1, h2, h3⟩ := runAmplitudes_aux meanSampleFrames hcap amps
    resetStreamAmplitude rfl rfl (Nat.zero_le _)
  simp only [runAmplitudes]
  exact ⟨h1, h2, h3, by rw [h1, h2]⟩

/-- Witness for c4_theorem at a concrete input. -/
theorem c4_witness :
    1 ≤ 2 ∧
    ((runAmplitudes 2 [1, 2, 3]).nSampleFrameAmplitudes =
      (runAmplitudes 2 [1, 2, 3]).sampleFrameAmplitudes.length ∧
     (runAmplitudes 2 [1, 2, 3]).sumSampleFrameAmplitudes =
      (runAmplitudes 2 [1, 2, 3]).sampleFrameAmplitudes.sum ∧
     (runAmplitudes 2 [1, 2, 3]).nSampleFrameAmplitudes ≤ 2 ∧
     (runAmplitudes 2 [1, 2, 3]).sumSampleFrameAmplitudes /
        ((runAmplitudes 2 [1, 2, 3]).nSampleFrameAmplitudes : ℚ) =
      (runAmplitudes 2 [1, 2, 3]).sampleFrameAmplitudes.sum /
        ((runAmplitudes 2 [1, 2, 3]).sampleFrameAmplitudes.length : ℚ)) :=
  ⟨by decide, c4_theorem 2 (by decide) [1, 2, 3]⟩

/-- C5: the mean is the running sum divided by the window length, or
exactly 1.0 when the window is empty; current_dB is 20 * log10 of
mean over peak, and is the fixed floor -90 whenever the mean or the
peak is exactly zero. -/
theorem c5_theorem (st : AmpState) (PEAK : ℚ) :
    (st.nSampleFrameAmplitudes = 0 → currentMeanAmplitude st = 1) ∧
    (0 < st.nSampleFrameAmplitudes →
      currentMeanAmplitude st =
        st.sumSampleFrameAmplitudes / (st.nSampleFrameAmplitudes : ℚ)) ∧
    (currentMeanAmplitude st = 0 ∨ PEAK = 0 → current_dB st PEAK = -90) ∧
    (currentMeanAmplitude st ≠ 0 → PEAK ≠ 0 →
      current_dB st PEAK =
        20 * Real.logb 10 ((currentMeanAmplitude st : ℝ) / (PEAK : ℝ))) := by
  refine ⟨fun h0 => ?_, fun hpos => ?_, fun hz => ?_, fun hm hp => ?_⟩
  · simp [currentMeanAmplitude, h0]
  · simp [currentMeanAmplitude, hpos]
  · simp [current_dB, hz]
  · simp [current_dB, hm, hp]

/-- Witness for c5_theorem at a concrete input. -/
theorem c5_witness :
    (resetStreamAmplitude.nSampleFrameAmplitudes = 0 ∧
      currentMeanAmplitude resetStreamAmplitude = 1) ∧
    current_dB resetStreamAmplitude 0 = -90 :=
  ⟨⟨rfl, (c5_theorem resetStreamAmplitude 0).1 rfl⟩,
    (c5_theorem resetStreamAmplitude 0).2.2.1 (Or.inr rfl)⟩

/-- C6 (claim as stated is false on the code). Two reachable tracker
states: after pushing the single amplitude 0 the mean is 0 and
current_dB returns the floor -90; after pushing the single amplitude 1
the mean is 1 and current_dB returns 20 * log10(1/32767), which is
below -90 (about -90.3) for the default 16-bit peak 32767. The mean
increased from 0 to 1 yet current_dB strictly decreased, so current_dB
is not monotonically non-decreasing in the mean once the zero-mean
floor case is included. -/
theorem c6_counterexample :
    currentMeanAmplitude (addStreamAmplitude 1 0 resetStreamAmplitude) = 0 ∧
    currentMeanAmplitude (addStreamAmplitude 1 1 resetStreamAmplitude) = 1 ∧
    current_dB (addStreamAmplitude 1 1 resetStreamAmplitude) 32767 <
      current_dB (addStreamAmplitude 1 0 resetStreamAmplitude) 32767 := by
  have hm0 : currentMeanAmplitude (addStreamAmplitude 1 0 resetStreamAmplitude) = 0 := by
    norm_num [currentMeanAmplitude, addStreamAmplitude, evictOldAmplitudes,
      resetStreamAmplitude]
  have hm1 : currentMeanAmplitude (addStreamAmplitude 1 1 resetStreamAmplitude) = 1 := by
    norm_num [currentMeanAmplitude, addStreamAmplitude, evictOldAmplitudes,
      resetStreamAmplitude]
  refine ⟨hm0, hm1, ?_⟩
  have hA : current_dB (addStreamAmplitude 1 0 resetStreamAmplitude) 32767 = -90 := by
    simp [current_dB, hm0]
  have hB : current_dB (addStreamAmplitude 1 1 resetStreamAmplitude) 32767 =
      20 * Real.logb 10 ((1 : ℝ) / 32767) := by
    rw [current_dB, hm1]
    norm_num
  rw [hA, hB]
  have h10 : (0 : ℝ) < Real.log 10 := Real.log_pos (by norm_num)
  have hlog : Real.log ((10 : ℝ) ^ (9 : ℕ)) < Real.log ((32767 : ℝ) ^ (2 : ℕ)) :=
    Real.log_lt_log (by positivity) (by norm_num)
  rw [Real.log_pow, Real.log_pow] at hlog
  have hgt : 9 / 2 < Real.logb 10 32767 := by
    rw [Real.logb, lt_div_iff h10]
    push_cast at hlog
    nlinarith
  have hinv : Real.logb 10 ((1 : ℝ) / 32767) = -Real.logb 10 32767 := by
    rw [one_div, Real.logb_inv]
  rw [hinv]
  nlinarith

/-- C6 (amended): for a fixed positive peak, current_dB is monotonically
non-decreasing as a function of the mean amplitude over tracker states
with positive mean; monotonicity fails only where the zero-mean floor
case is included, because the -90 floor exceeds the dB value of
sufficiently small positive means. -/
theorem c6_amended_theorem (st1 st2 : AmpState) (PEAK : ℚ)
    (h1 : 0 < currentMeanAmplitude st1)
    (h12 : currentMeanAmplitude st1 ≤ currentMeanAmplitude st2)
    (hP : 0 < PEAK) :
    current_dB st1 PEAK ≤ current_dB st2 PEAK := by
  have h2 : 0 < currentMeanAmplitude st2 := lt_of_lt_of_le h1 h12
  have e1 : current_dB st1 PEAK =
      20 * Real.logb 10 ((currentMeanAmplitude st1 : ℝ) / (PEAK : ℝ)) := by
    rw [current_dB, if_neg]
    push_neg
    exact ⟨ne_of_gt h1, ne_of_gt hP⟩
  have e2 : current_dB st2 PEAK =
      20 * Real.logb 10 ((currentMeanAmplitude st2 : ℝ) / (PEAK : ℝ)) := by
    rw [current_dB, if_neg]
    push_neg
    exact ⟨ne_of_gt h2, ne_of_gt hP⟩
  rw [e1, e2]
  have hPR : (0 : ℝ) < (PEAK : ℚ) := by exact_mod_cast hP
  have hm1R : (0 : ℝ) < (currentMeanAmplitude st1 : ℚ) := by exact_mod_cast h1
  have hdivpos : (0 : ℝ) < (currentMeanAmplitude st1 : ℚ) / (PEAK : ℚ) :=
    div_pos hm1R hPR
  have h12R : ((currentMeanAmplitude st1 : ℚ) : ℝ) ≤
      ((currentMeanAmplitude st2 : ℚ) : ℝ) := by exact_mod_cast h12
  have hdivle : ((currentMeanAmplitude st1 : ℚ) : ℝ) / (PEAK : ℚ) ≤
      ((currentMeanAmplitude st2 : ℚ) : ℝ) / (PEAK : ℚ) := by
    gcongr
  have := Real.logb_le_logb_of_le (by norm_num : (1 : ℝ) < 10) hdivpos hdivle
  nlinarith

/-- Witness for c6_amended_theorem at concrete inputs. -/
theorem c6_witness :
    (0 < currentMeanAmplitude (addStreamAmplitude 1 1 resetStreamAmplitude) ∧
     currentMeanAmplitude (addStreamAmplitude 1 1 resetStreamAmplitude) ≤
       currentMeanAmplitude (addStreamAmplitude 1 2 resetStreamAmplitude) ∧
     (0 : ℚ) < 32767) ∧
    current_dB (addStreamAmplitude 1 1 resetStreamAmplitude) 32767 ≤
      current_dB (addStreamAmplitude 1 2 resetStreamAmplitude) 32767 :=
  ⟨⟨by norm_num [currentMeanAmplitude, addStreamAmplitude, evictOldAmplitudes,
      resetStreamAmplitude],
    by norm_num [currentMeanAmplitude, addStreamAmplitude, evictOldAmplitudes,
      resetStreamAmplitude],
    by norm_num⟩,
    c6_amended_theorem (addStreamAmplitude 1 1 resetStreamAmplitude)
      (addStreamAmplitude 1 2 resetStreamAmplitude) 32767
      (by norm_num [currentMeanAmplitude, addStreamAmplitude, evictOldAmplitudes,
        resetStreamAmplitude])
      (by norm_num [currentMeanAmplitude, addStreamAmplitude, evictOldAmplitudes,
        resetStreamAmplitude])
      (by norm_num)⟩

/-- C3 (claim as stated is false on the code). With a frame length of
1024 samples and the Hann window configured, the overlap is
int(0.66 * 1024) = int(675.84) = 675 samples, not 676, and the
per-frame advance computed by __get_next_frame_limits is
1024 - 675 = 349 samples, not 348. -/
theorem c3_counterexample :
    overlapLengthOf 1024 (getWindowFunctionIsSome "Hann") = 675 ∧
    (getNextFrameLimits 0 1024 (overlapLengthOf 1024 (getWindowFunctionIsSome "Hann"))).1 = 349 ∧
    overlapLengthOf 1024 (getWindowFunctionIsSome "Hann") ≠ 676 := by
  have hov : overlapLengthOf 1024 (getWindowFunctionIsSome "Hann") = 675 := by
    rw [show getWindowFunctionIsSome "Hann" = true from rfl]
    rw [overlapLengthOf, if_pos rfl, windowOverlapRatio, Int.floor_eq_iff]
    norm_num
  refine ⟨hov, ?_, by rw [hov]; decide⟩
  rw [hov]
  decide

/-- C3 (amended): with an FFT frame length of 1024 samples, window
function Hann (recognized, so a window and hence an overlap is in
effect), and window-overlap ratio 0.66, the computed overlap length is
675 samples and the per-frame cursor advance (frame length minus
overlap) is 349 samples. The sample rate does not enter this
computation. -/
theorem c3_amended_theorem :
    getWindowFunctionIsSome "Hann" = true ∧
    overlapLengthOf 1024 true = 675 ∧
    1024 - overlapLengthOf 1024 true = 349 ∧
    (getNextFrameLimits 0 1024 (overlapLengthOf 1024 true)).1 = 349 := by
  have hov : overlapLengthOf 1024 true = 675 := by
    rw [overlapLengthOf, if_pos rfl, windowOverlapRatio, Int.floor_eq_iff]
    norm_num
  exact ⟨rfl, hov, by rw [hov]; decide, by rw [hov]; decide⟩

/-- C8: set_sample_rate is a no-op while the device is open (rate and
cached Nyquist frequency keep their values) and, while the device is
closed, sets the rate and caches int(newRate / 2); the cached Nyquist
value equals RATE / 2 in the initial configuration and this property is
preserved by every call. -/
theorem c8_theorem (st : AudioRxConfig) (newRate : ℕ)
    (hinv : st.nyquistRate = st.RATE / 2) :
    (st.audioOpen = true → setSampleRate newRate st = st) ∧
    (st.audioOpen = false →
      (setSampleRate newRate st).RATE = newRate ∧
      (setSampleRate newRate st).nyquistRate = newRate / 2) ∧
    (setSampleRate newRate st).nyquistRate = (setSampleRate newRate st).RATE / 2 ∧
    initAudioRxConfig.nyquistRate = initAudioRxConfig.RATE / 2 := by
  refine ⟨fun hopen => ?_, fun hclosed => ?_, ?_, by decide⟩
  · simp [setSampleRate, hopen]
  · simp only [setSampleRate, hclosed, Bool.false_eq_true, if_false]
    split_ifs with hr
    · exact ⟨rfl, rfl⟩
    · push_neg at hr
      exact ⟨hr, by rw [hinv, hr]⟩
  · simp only [setSampleRate]
    split_ifs with h1 h2
    · exact hinv
    · rfl
    · exact hinv

/-- Witness for c8_theorem at concrete inputs. -/
theorem c8_witness :
    initAudioRxConfig.nyquistRate = initAudioRxConfig.RATE / 2 ∧
    (initAudioRxConfig.audioOpen = false →
      (setSampleRate 48000 initAudioRxConfig).RATE = 48000 ∧
      (setSampleRate 48000 initAudioRxConfig).nyquistRate = 48000 / 2) :=
  ⟨by decide, (c8_theorem initAudioRxConfig 48000 (by decide)).2.1⟩

/-- The FFT frame size is exactly two seconds of samples. -/
lemma fftFrameSizeOf_eq (RATE : ℕ) : fftFrameSizeOf RATE = 2 * (RATE : ℤ) := by
  rw [fftFrameSizeOf]
  rw [show (2 : ℚ) * (RATE : ℚ) = ((2 * RATE : ℤ) : ℚ) by push_cast; ring]
  rw [Int.floor_intCast]

/-- C9 (claim as stated is false on the code). Starting capture from
the pristine state at the default 44100 Hz rate does empty the
amplitude window, but presets the time-domain sample stream with
fftMinimumSampleFrame * int(2.0 * 44100) = 2 * 88200 = 176400
zero-valued samples rather than zero retained samples. -/
theorem c9_counterexample :
    (startAudio 44100 initAudioStartState).nSampleStream = 176400 ∧
    (startAudio 44100 initAudioStartState).nSampleStream ≠ 0 ∧
    (startAudio 44100 initAudioStartState).amp.nSampleFrameAmplitudes = 0 := by
  have hs : (startAudio 44100 initAudioStartState).nSampleStream = 176400 := by
    show initAudioStartState.fftMinimumSampleFrame * fftFrameSizeOf 44100 = 176400
    rw [fftFrameSizeOf_eq]
    decide
  exact ⟨hs, by rw [hs]; decide, rfl⟩

/-- C9 (amended): on every start of the capture loop with no device yet
open, before any capture iteration runs, the amplitude window is reset
to empty (zero retained amplitude entries) and the time-domain sample
stream is initialized to fftMinimumSampleFrame frames of
int(2.0 * RATE) zero-valued samples each (a deliberate lead-in for
overlapped windowing), after which fftMinimumSampleFrame is lowered
to 1. -/
theorem c9_amended_theorem (RATE : ℕ) (st : AudioStartState)
    (hopen : st.audioDevOpen = false) :
    (startAudio RATE st).amp = resetStreamAmplitude ∧
    (startAudio RATE st).amp.nSampleFrameAmplitudes = 0 ∧
    (startAudio RATE st).nSampleStream =
      st.fftMinimumSampleFrame * (2 * (RATE : ℤ)) ∧
    (startAudio RATE st).sampleStream =
      List.replicate (st.fftMinimumSampleFrame * (2 * (RATE : ℤ))).toNat 0 ∧
    (∀ q ∈ (startAudio RATE st).sampleStream, q = 0) ∧
    (startAudio RATE st).fftMinimumSampleFrame = 1 := by
  rw [startAudio, if_neg (by simp [hopen])]
  refine ⟨rfl, rfl, ?_, ?_, fun q hq => List.eq_of_mem_replicate hq, rfl⟩
  · show st.fftMinimumSampleFrame * fftFrameSizeOf RATE =
      st.fftMinimumSampleFrame * (2 * (RATE : ℤ))
    rw [fftFrameSizeOf_eq]
  · show List.replicate (st.fftMinimumSampleFrame * fftFrameSizeOf RATE).toNat (0 : ℚ) =
      List.replicate (st.fftMinimumSampleFrame * (2 * (RATE : ℤ))).toNat 0
    rw [fftFrameSizeOf_eq]

/-- Witness for c9_amended_theorem at a concrete input. -/
theorem c9_witness :
    initAudioStartState.audioDevOpen = false ∧
    ((startAudio 3 initAudioStartState).amp = resetStreamAmplitude ∧
     (startAudio 3 initAudioStartState).amp.nSampleFrameAmplitudes = 0 ∧
     (startAudio 3 initAudioStartState).nSampleStream =
       initAudioStartState.fftMinimumSampleFrame * (2 * (3 : ℤ)) ∧
     (startAudio 3 initAudioStartState).sampleStream =
       List.replicate (initAudioStartState.fftMinimumSampleFrame * (2 * (3 : ℤ))).toNat 0 ∧
     (∀ q ∈ (startAudio 3 initAudioStartState).sampleStream, q = 0) ∧
     (startAudio 3 initAudioStartState).fftMinimumSampleFrame = 1) :=
  ⟨rfl, c9_amended_theorem 3 initAudioStartState rfl⟩

/-- C7 (claim as stated is false on the code). A band-pass
configuration with low cutoff exactly 0 and high cutoff 100 at a
22050 Hz Nyquist frequency satisfies the validation rule stated by the
claim (0 ≤ low < high ≤ Nyquist), yet the code leaves filtering
disabled, because __create_sample_filter requires the band-pass low
cutoff to be strictly positive. -/
theorem c7_counterexample :
    specFilterValidates "Band pass" 0 100 22050 = true ∧
    createSampleFilter "Band pass" 0 100 22050 = SampleFilter.passthrough := by
  constructor
  · rw [specFilterValidates]
    norm_num
  · rw [createSampleFilter, if_neg]
    norm_num

/-- C7 (amended): filter configuration is validated as: low-pass
requires 0 < high < Nyquist; high-pass requires 0 < low < Nyquist;
band-pass requires 0 < low < high ≤ Nyquist; band-stop requires
0 ≤ low < high ≤ Nyquist. Any violation leaves filtering disabled
(both coefficient vectors absent, i.e. passthrough) without raising;
an empty (none) filter type is likewise passthrough, and an enabled
high-pass filter uses the single-vector (sos) form while the other
families use the two-vector form. -/
theorem c7_amended_theorem (filtLowF filtHighF nyquistFrequency : ℚ) :
    (createSampleFilter "Low pass" filtLowF filtHighF nyquistFrequency ≠ .passthrough ↔
      0 < filtHighF ∧ filtHighF < nyquistFrequency) ∧
    (createSampleFilter "High pass" filtLowF filtHighF nyquistFrequency ≠ .passthrough ↔
      0 < filtLowF ∧ filtLowF < nyquistFrequency) ∧
    (createSampleFilter "Band pass" filtLowF filtHighF nyquistFrequency ≠ .passthrough ↔
      0 < filtLowF ∧ filtLowF < filtHighF ∧ filtHighF ≤ nyquistFrequency) ∧
    (createSampleFilter "Band stop" filtLowF filtHighF nyquistFrequency ≠ .passthrough ↔
      0 ≤ filtLowF ∧ filtLowF < filtHighF ∧ filtHighF ≤ nyquistFrequency) ∧
    createSampleFilter "" filtLowF filtHighF nyquistFrequency = .passthrough ∧
    (createSampleFilter "High pass" filtLowF filtHighF nyquistFrequency = .passthrough ∨
     createSampleFilter "High pass" filtLowF filtHighF nyquistFrequency = .sosA) := by
  refine ⟨?_, ?_, ?_, ?_, rfl, ?_⟩
  · rw [createSampleFilter]
    split_ifs with hc <;> simp [hc]
  · rw [createSampleFilter]
    split_ifs with hc <;> simp [hc]
  · rw [createSampleFilter]
    split_ifs with hc
    · constructor
      · exact fun _ => ⟨hc.1, hc.2.2, hc.2.1⟩
      · exact fun _ => by simp
    · constructor
      · exact fun hfalse => absurd rfl hfalse
      · rintro ⟨h1, h2, h3⟩
        exact fun _ => hc ⟨h1, h3, h2⟩
  · rw [createSampleFilter]
    split_ifs with hc
    · constructor
      · exact fun _ => ⟨hc.1, hc.2.2, hc.2.1⟩
      · exact fun _ => by simp
    · constructor
      · exact fun hfalse => absurd rfl hfalse
      · rintro ⟨h1, h2, h3⟩
        exact fun _ => hc ⟨h1, h3, h2⟩
  · rw [createSampleFilter]
    split_ifs <;> simp

/-- Witness for c7_amended_theorem at concrete inputs. -/
theorem c7_witness :
    createSampleFilter "Low pass" 5 100 22050 ≠ SampleFilter.passthrough ↔
      (0 : ℚ) < 100 ∧ (100 : ℚ) < 22050 :=
  (c7_amended_theorem 5 100 22050).1


/-!
Helper lemmas: field bookkeeping for the FFT stream state machine.
-/

lemma createBinFrequencyData_fields (RATE : ℕ) (b : ℤ) (st : FFTStreamState) :
    (createBinFrequencyData RATE b st).nSampleStream = st.nSampleStream ∧
    (createBinFrequencyData RATE b st).fftActiveStart = st.fftActiveStart ∧
    (createBinFrequencyData RATE b st).totalAppended = st.totalAppended ∧
    (createBinFrequencyData RATE b st).accumFFTSums = st.accumFFTSums ∧
    (createBinFrequencyData RATE b st).fftSumPresent = st.fftSumPresent ∧
    (createBinFrequencyData RATE b st).totalTransforms = st.totalTransforms := by
  rw [createBinFrequencyData]
  split <;> exact ⟨rfl, rfl, rfl, rfl, rfl, rfl⟩

lemma accumFFTSumStep_fields (st : FFTStreamState) :
    (accumFFTSumStep st).nSampleStream = st.nSampleStream ∧
    (accumFFTSumStep st).fftActiveStart = st.fftActiveStart ∧
    (accumFFTSumStep st).totalAppended = st.totalAppended ∧
    (accumFFTSumStep st).xFreq = st.xFreq ∧
    (accumFFTSumStep st).lastBinCount = st.lastBinCount ∧
    (accumFFTSumStep st).lastRate = st.lastRate ∧
    (accumFFTSumStep st).totalTransforms = st.totalTransforms + 1 := by
  rw [accumFFTSumStep]
  split <;> exact ⟨rfl, rfl, rfl, rfl, rfl, rfl, rfl⟩

lemma fftFrameBodyStep_fields (RATE : ℕ) (F O start : ℤ) (st : FFTStreamState) :
    (fftFrameBodyStep RATE F O start st).fftActiveStart = start + F - O ∧
    (fftFrameBodyStep RATE F O start st).nSampleStream = st.nSampleStream ∧
    (fftFrameBodyStep RATE F O start st).totalAppended = st.totalAppended ∧
    (fftFrameBodyStep RATE F O start st).totalTransforms = st.totalTransforms + 1 := by
  refine ⟨rfl, ?_, ?_, ?_⟩
  · exact (accumFFTSumStep_fields _).1.trans (createBinFrequencyData_fields RATE _ st).1
  · exact (accumFFTSumStep_fields _).2.2.1.trans
      (createBinFrequencyData_fields RATE _ st).2.2.1
  · exact ((accumFFTSumStep_fields _).2.2.2.2.2.2).trans
      (by rw [(createBinFrequencyData_fields RATE _ st).2.2.2.2.2])

lemma dropRedundantSamples_fields (F minFrame : ℤ) (st : FFTStreamState) :
    (dropRedundantSamples F minFrame st).xFreq = st.xFreq ∧
    (dropRedundantSamples F minFrame st).lastBinCount = st.lastBinCount ∧
    (dropRedundantSamples F minFrame st).lastRate = st.lastRate ∧
    (dropRedundantSamples F minFrame st).accumFFTSums = st.accumFFTSums ∧
    (dropRedundantSamples F minFrame st).fftSumPresent = st.fftSumPresent ∧
    (dropRedundantSamples F minFrame st).totalTransforms = st.totalTransforms ∧
    (dropRedundantSamples F minFrame st).totalAppended = st.totalAppended := by
  rw [dropRedundantSamples]
  split <;> [skip; exact ⟨rfl, rfl, rfl, rfl, rfl, rfl, rfl⟩]
  split <;> exact ⟨rfl, rfl, rfl, rfl, rfl, rfl, rfl⟩

/-!
Helper lemma: the frame loop processes only frames whose start is at or
beyond the initial start, each exactly F samples long, ending strictly
before transformEnd; the cursor either keeps its entry value (no frame
processed) or lands strictly between the initial start and
transformEnd - O; the stream length and appended total are untouched.
-/

lemma doFFTLoop_spec_aux (RATE : ℕ) (F O te : ℤ) (hF : 0 < F) (hFO : O < F) :
    ∀ (m : ℕ) (start : ℤ) (st : FFTStreamState), (te - start).toNat ≤ m →
      (∀ p ∈ (doFFTLoop RATE F O te hF hFO start st).2,
          start ≤ p.1 ∧ p.2 = p.1 + F ∧ p.2 < te) ∧
      ((doFFTLoop RATE F O te hF hFO start st).1.fftActiveStart = st.fftActiveStart ∨
        (start < (doFFTLoop RATE F O te hF hFO start st).1.fftActiveStart ∧
         (doFFTLoop RATE F O te hF hFO start st).1.fftActiveStart + O < te)) ∧
      (doFFTLoop RATE F O te hF hFO start st).1.nSampleStream = st.nSampleStream ∧
      (doFFTLoop RATE F O te hF hFO start st).1.totalAppended = st.totalAppended := by
  intro m
  induction m with
  | zero =>
    intro start st hm
    rw [doFFTLoop, dif_neg (by omega)]
    exact ⟨fun p hp => absurd hp (List.not_mem_nil p), Or.inl rfl, rfl, rfl⟩
  | succ m ih =>
    intro start st hm
    by_cases h : start + F < te
    · rw [doFFTLoop, dif_pos h]
      dsimp only
      have hm' : (te - (start + F - O)).toNat ≤ m := by omega
      obtain ⟨ihf, ihc, ihn, iht⟩ := ih (start + F - O) (fftFrameBodyStep RATE F O start st) hm'
      obtain ⟨b1, b2, b3, b4⟩ := fftFrameBodyStep_fields RATE F O start st
      refine ⟨?_, ?_, ?_, ?_⟩
      · intro p hp
        rcases List.mem_cons.mp hp with hph | hpt
        · rw [hph]
          exact ⟨le_refl start, rfl, h⟩
        · obtain ⟨hs, he, hte⟩ := ihf p hpt
          exact ⟨by omega, he, hte⟩
      · rcases ihc with heq | ⟨hgt, hlt⟩
        · right
          rw [heq, b1]
          omega
        · right
          exact ⟨by omega, hlt⟩
      · rw [ihn, b2]
      · rw [iht, b3]
    · rw [doFFTLoop, dif_neg h]
      exact ⟨fun p hp => absurd hp (List.not_mem_nil p), Or.inl rfl, rfl, rfl⟩

lemma doFFTLoop_spec (RATE : ℕ) (F O te : ℤ) (hF : 0 < F) (hFO : O < F)
    (start : ℤ) (st : FFTStreamState) :
    (∀ p ∈ (doFFTLoop RATE F O te hF hFO start st).2,
        start ≤ p.1 ∧ p.2 = p.1 + F ∧ p.2 < te) ∧
    ((doFFTLoop RATE F O te hF hFO start st).1.fftActiveStart = st.fftActiveStart ∨
      (start < (doFFTLoop RATE F O te hF hFO start st).1.fftActiveStart ∧
       (doFFTLoop RATE F O te hF hFO start st).1.fftActiveStart + O < te)) ∧
    (doFFTLoop RATE F O te hF hFO start st).1.nSampleStream = st.nSampleStream ∧
    (doFFTLoop RATE F O te hF hFO start st).1.totalAppended = st.totalAppended :=
  doFFTLoop_spec_aux RATE F O te hF hFO (te - start).toNat start st le_rfl

/-- The structural invariant of the sample stream: the active cursor is
nonnegative, never beyond the write position (the current stream
length), and the stream never holds more than has ever been appended. -/
def FFTInv (st : FFTStreamState) : Prop :=
  0 ≤ st.fftActiveStart ∧ st.fftActiveStart ≤ st.nSampleStream ∧
  st.nSampleStream ≤ st.totalAppended

lemma frame_le_min_mul (F minFrame : ℤ) (hF : 0 < F) (hmF : 1 ≤ minFrame) :
    F ≤ minFrame * F :=
  le_mul_of_one_le_left (le_of_lt hF) hmF

lemma dropRedundantSamples_inv (F minFrame : ℤ) (hF : 0 < F) (hmF : 1 ≤ minFrame)
    (st : FFTStreamState) (hInv : FFTInv st) :
    FFTInv (dropRedundantSamples F minFrame st) := by
  obtain ⟨h1, h2, h3⟩ := hInv
  have hM : F ≤ minFrame * F := frame_le_min_mul F minFrame hF hmF
  rw [dropRedundantSamples]
  split_ifs with hc1 hc2
  · refine ⟨?_, ?_, ?_⟩ <;> dsimp only <;> linarith
  · exact ⟨h1, h2, h3⟩
  · exact ⟨h1, h2, h3⟩

lemma doFFTLoopPhase_inv (RATE : ℕ) (F O minFrame : ℤ) (hF : 0 < F)
    (hO : 0 ≤ O) (hFO : O < F) (hmF : 1 ≤ minFrame) (st : FFTStreamState)
    (hInv : FFTInv st) :
    FFTInv (doFFTLoopPhase RATE F O minFrame hF hFO st).1 ∧
    (∀ p ∈ (doFFTLoopPhase RATE F O minFrame hF hFO st).2,
        0 ≤ p.1 ∧ p.2 ≤ st.nSampleStream) ∧
    (doFFTLoopPhase RATE F O minFrame hF hFO st).1.nSampleStream = st.nSampleStream ∧
    (doFFTLoopPhase RATE F O minFrame hF hFO st).1.totalAppended = st.totalAppended := by
  obtain ⟨h1, h2, h3⟩ := hInv
  have hM : F ≤ minFrame * F := frame_le_min_mul F minFrame hF hmF
  obtain ⟨hframes, hcursor, hn, ht⟩ := doFFTLoop_spec RATE F O
    ((st.nSampleStream - st.fftActiveStart) - minFrame * F) hF hFO
    (max (st.fftActiveStart - O) 0) st
  have hst0 : (0 : ℤ) ≤ max (st.fftActiveStart - O) 0 := le_max_right _ _
  simp only [doFFTLoopPhase]
  refine ⟨⟨?_, ?_, ?_⟩, ?_, ?_, ?_⟩
  · rcases hcursor with heq | ⟨hgt, _⟩
    · rw [heq]; exact h1
    · linarith
  · rcases hcursor with heq | ⟨_, hlt⟩
    · rw [heq, hn]; exact h2
    · rw [hn]; linarith
  · rw [hn, ht]; exact h3
  · intro p hp
    obtain ⟨hs, _, hte⟩ := hframes p hp
    constructor
    · linarith
    · linarith
  · exact hn
  · exact ht

lemma doFFT_inv (RATE : ℕ) (F O minFrame : ℤ) (hF : 0 < F) (hO : 0 ≤ O)
    (hFO : O < F) (hmF : 1 ≤ minFrame) (st : FFTStreamState) (hInv : FFTInv st) :
    FFTInv (doFFT RATE F O minFrame hF hFO st).1 ∧
    (∀ p ∈ (doFFT RATE F O minFrame hF hFO st).2,
        0 ≤ p.1 ∧ p.2 ≤ st.nSampleStream) ∧
    (doFFT RATE F O minFrame hF hFO st).1.totalAppended = st.totalAppended := by
  obtain ⟨hphaseInv, hframes, _, ht⟩ :=
    doFFTLoopPhase_inv RATE F O minFrame hF hO hFO hmF st hInv
  refine ⟨?_, hframes, ?_⟩
  · exact dropRedundantSamples_inv F minFrame hF hmF _ hphaseInv
  · rw [doFFT]
    exact (dropRedundantSamples_fields F minFrame _).2.2.2.2.2.2.trans ht

lemma appendSamplesOnly_inv (k : ℕ) (st : FFTStreamState) (hInv : FFTInv st) :
    FFTInv (appendSamplesOnly k st) := by
  obtain ⟨h1, h2, h3⟩ := hInv
  have hk : (0 : ℤ) ≤ (k : ℤ) := Int.natCast_nonneg k
  exact ⟨h1, by dsimp only [appendSamplesOnly]; linarith,
    by dsimp only [appendSamplesOnly]; linarith⟩

lemma runFFTOp_inv (RATE : ℕ) (F O minFrame batchFFTDuration : ℤ) (hF : 0 < F)
    (hO : 0 ≤ O) (hFO : O < F) (hmF : 1 ≤ minFrame) (st : FFTStreamState)
    (op : FFTStreamOp) (hInv : FFTInv st) :
    FFTInv (runFFTOp RATE F O minFrame batchFFTDuration hF hFO st op).1 := by
  cases op with
  | append k =>
    rw [runFFTOp, addFFTStreamSamples]
    have hInv1 := appendSamplesOnly_inv k st hInv
    split_ifs with hc
    · exact (doFFT_inv RATE F O minFrame hF hO hFO hmF _ hInv1).1
    · exact hInv1
  | process =>
    exact (doFFT_inv RATE F O minFrame hF hO hFO hmF st hInv).1
  | drain =>
    obtain ⟨hd1, _, _⟩ := doFFT_inv RATE F O minFrame hF hO hFO hmF st hInv
    rw [runFFTOp, fftDataDrain]
    exact hd1

lemma runFFTOps_inv (RATE : ℕ) (F O minFrame batchFFTDuration : ℤ) (hF : 0 < F)
    (hO : 0 ≤ O) (hFO : O < F) (hmF : 1 ≤ minFrame) :
    ∀ (ops : List FFTStreamOp) (st : FFTStreamState), FFTInv st →
      FFTInv (runFFTOps RATE F O minFrame batchFFTDuration hF hFO ops st) := by
  intro ops
  induction ops with
  | nil => intro st h; exact h
  | cons op rest ih =>
    intro st h
    exact ih _ (runFFTOp_inv RATE F O minFrame batchFFTDuration hF hO hFO hmF st op h)

lemma initFFTStreamState_inv (F : ℤ) (hF : 0 < F) :
    FFTInv (initFFTStreamState F) := by
  refine ⟨le_refl 0, ?_, le_refl _⟩
  dsimp only [initFFTStreamState]
  linarith

lemma droppedSamples_leadin (F O minFrame : ℤ) (hOm : O ≤ minFrame * F)
    (st : FFTStreamState) :
    droppedSamples F minFrame st ≤ max (st.fftActiveStart - O) 0 := by
  rw [droppedSamples, dropRedundantSamples]
  split_ifs with hc1 hc2
  · dsimp only
    have : st.fftActiveStart - O ≤ max (st.fftActiveStart - O) 0 := le_max_left _ _
    linarith
  · simp
  · simp

/-- C2: for every sequence of append, process, and drain operations on
the spectrum accumulator, starting from the preset state: the structural
invariant holds (cursor nonnegative, cursor at most the write position,
write position at most the total appended sample count); whatever
process pass runs next from the reached state frames only slices with
nonnegative start and end at most the current number of samples in the
buffer; the cursor after that process pass is at most the total appended
sample count; and buffer compaction never removes samples still required
as overlap lead-in for the next frame (the dropped prefix never reaches
the next frame start cursor - O, clamped at zero). -/
theorem c2_theorem (RATE : ℕ) (F O minFrame batchFFTDuration : ℤ)
    (hF : 0 < F) (hO : 0 ≤ O) (hFO : O < F) (hmF : 1 ≤ minFrame)
    (ops : List FFTStreamOp) :
    FFTInv (runFFTOps RATE F O minFrame batchFFTDuration hF hFO ops
      (initFFTStreamState F)) ∧
    (∀ p ∈ (doFFT RATE F O minFrame hF hFO
        (runFFTOps RATE F O minFrame batchFFTDuration hF hFO ops
          (initFFTStreamState F))).2,
      0 ≤ p.1 ∧
      p.2 ≤ (runFFTOps RATE F O minFrame batchFFTDuration hF hFO ops
        (initFFTStreamState F)).nSampleStream) ∧
    (doFFT RATE F O minFrame hF hFO
        (runFFTOps RATE F O minFrame batchFFTDuration hF hFO ops
          (initFFTStreamState F))).1.fftActiveStart ≤
      (runFFTOps RATE F O minFrame batchFFTDuration hF hFO ops
        (initFFTStreamState F)).totalAppended ∧
    (∀ st : FFTStreamState,
      droppedSamples F minFrame st ≤ max (st.fftActiveStart - O) 0) := by
  have hInv := runFFTOps_inv RATE F O minFrame batchFFTDuration hF hO hFO hmF ops
    (initFFTStreamState F) (initFFTStreamState_inv F hF)
  obtain ⟨hd1, hd2, hd3⟩ := doFFT_inv RATE F O minFrame hF hO hFO hmF _ hInv
  refine ⟨hInv, hd2, ?_, fun st => droppedSamples_leadin F O minFrame ?_ st⟩
  · exact (hd1.2.1.trans hd1.2.2).trans (le_of_eq hd3)
  · exact le_trans (le_of_lt hFO) (frame_le_min_mul F minFrame hF hmF)

/-- Witness for c2_theorem at concrete inputs. -/
theorem c2_witness :
    ((0 : ℤ) < 4 ∧ (0 : ℤ) ≤ 2 ∧ (2 : ℤ) < 4 ∧ (1 : ℤ) ≤ 1) ∧
    FFTInv (runFFTOps 1 4 2 1 0 (by decide) (by decide)
      [FFTStreamOp.append 5, FFTStreamOp.process] (initFFTStreamState 4)) :=
  ⟨⟨by decide, by decide, by decide, by decide⟩,
    (c2_theorem 1 4 2 1 0 (by decide) (by decide) (by decide) (by decide)
      [FFTStreamOp.append 5, FFTStreamOp.process]).1⟩

/-!
The frequency-table (xFreq) life cycle.
-/

/-- The rebuild-guards of the frequency table agree with the current
frame size and sample rate, so a further rebuild check is a no-op. -/
def xFreqConsistent (RATE : ℕ) (F : ℤ) (st : FFTStreamState) : Prop :=
  st.lastBinCount = F / 2 + 1 ∧ st.lastRate = RATE

/-- The frequency-table invariant: no table exists before the first
transform, and any existing table is the one built for the current
frame size and sample rate, with the rebuild-guards recorded. -/
def xFreqInv (RATE : ℕ) (F : ℤ) (st : FFTStreamState) : Prop :=
  (st.totalTransforms = 0 → st.xFreq = none) ∧
  (st.xFreq = none ∨
    (st.xFreq = some (F / 2 + 1, RATE) ∧ xFreqConsistent RATE F st))

lemma createBinFrequencyData_self (RATE : ℕ) (F : ℤ) (st : FFTStreamState)
    (hc : xFreqConsistent RATE F st) :
    createBinFrequencyData RATE (F / 2 + 1) st = st := by
  rw [createBinFrequencyData, if_neg]
  push_neg
  exact ⟨hc.1.symm, hc.2⟩

lemma createBinFrequencyData_xFreq (RATE : ℕ) (b : ℤ) (st : FFTStreamState) :
    ((createBinFrequencyData RATE b st).xFreq = some (b, RATE) ∧
     (createBinFrequencyData RATE b st).lastBinCount = b ∧
     (createBinFrequencyData RATE b st).lastRate = RATE) ∨
    createBinFrequencyData RATE b st = st := by
  rw [createBinFrequencyData]
  split_ifs with hcond
  · left; exact ⟨rfl, rfl, rfl⟩
  · right; rfl

lemma fftFrameBodyStep_xfields (RATE : ℕ) (F O start : ℤ) (st : FFTStreamState) :
    (fftFrameBodyStep RATE F O start st).xFreq =
      (createBinFrequencyData RATE (F / 2 + 1) st).xFreq ∧
    (fftFrameBodyStep RATE F O start st).lastBinCount =
      (createBinFrequencyData RATE (F / 2 + 1) st).lastBinCount ∧
    (fftFrameBodyStep RATE F O start st).lastRate =
      (createBinFrequencyData RATE (F / 2 + 1) st).lastRate :=
  ⟨(accumFFTSumStep_fields _).2.2.2.1, (accumFFTSumStep_fields _).2.2.2.2.1,
    (accumFFTSumStep_fields _).2.2.2.2.2.1⟩

/-- Transport the frequency-table invariant across a state change that
leaves the table, its guards and the transform total untouched. -/
lemma xFreqInv_of_fields_eq (RATE : ℕ) (F : ℤ) (s t : FFTStreamState)
    (hx : t.xFreq = s.xFreq) (hb : t.lastBinCount = s.lastBinCount)
    (hr : t.lastRate = s.lastRate) (ht : t.totalTransforms = s.totalTransforms)
    (h : xFreqInv RATE F s) : xFreqInv RATE F t := by
  constructor
  · intro h0
    rw [ht] at h0
    rw [hx]
    exact h.1 h0
  · rcases h.2 with hnone | ⟨hsome, hc1, hc2⟩
    · left; rw [hx]; exact hnone
    · right
      exact ⟨by rw [hx]; exact hsome, by rw [hb]; exact hc1, by rw [hr]; exact hc2⟩

lemma fftFrameBodyStep_xInv (RATE : ℕ) (F O start : ℤ) (st : FFTStreamState)
    (h : xFreqInv RATE F st) :
    xFreqInv RATE F (fftFrameBodyStep RATE F O start st) := by
  obtain ⟨hx1, hx2, hx3⟩ := fftFrameBodyStep_xfields RATE F O start st
  have htt := (fftFrameBodyStep_fields RATE F O start st).2.2.2
  rcases createBinFrequencyData_xFreq RATE (F / 2 + 1) st with ⟨g1, g2, g3⟩ | geq
  · constructor
    · intro h0
      rw [htt] at h0
      omega
    · right
      exact ⟨by rw [hx1, g1], by rw [hx2, g2], by rw [hx3, g3]⟩
  · constructor
    · intro h0
      rw [htt] at h0
      omega
    · rcases h.2 with hnone | ⟨hsome, hc1, hc2⟩
      · left; rw [hx1, geq]; exact hnone
      · right
        refine ⟨?_, ?_, ?_⟩
        · rw [hx1, geq]; exact hsome
        · rw [hx2, geq]; exact hc1
        · rw [hx3, geq]; exact hc2

lemma doFFTLoop_xInv_aux (RATE : ℕ) (F O te : ℤ) (hF : 0 < F) (hFO : O < F) :
    ∀ (m : ℕ) (start : ℤ) (st : FFTStreamState), (te - start).toNat ≤ m →
      xFreqInv RATE F st →
      xFreqInv RATE F (doFFTLoop RATE F O te hF hFO start st).1 := by
  intro m
  induction m with
  | zero =>
    intro start st hm h
    rw [doFFTLoop, dif_neg (by omega)]
    exact h
  | succ m ih =>
    intro start st hm h
    by_cases hc : start + F < te
    · rw [doFFTLoop, dif_pos hc]
      dsimp only
      exact ih (start + F - O) (fftFrameBodyStep RATE F O start st) (by omega)
        (fftFrameBodyStep_xInv RATE F O start st h)
    · rw [doFFTLoop, dif_neg hc]
      exact h

lemma doFFTLoop_consistent_aux (RATE : ℕ) (F O te : ℤ) (hF : 0 < F) (hFO : O < F) :
    ∀ (m : ℕ) (start : ℤ) (st : FFTStreamState), (te - start).toNat ≤ m →
      xFreqConsistent RATE F st →
      (doFFTLoop RATE F O te hF hFO start st).1.xFreq = st.xFreq ∧
      xFreqConsistent RATE F (doFFTLoop RATE F O te hF hFO start st).1 := by
  intro m
  induction m with
  | zero =>
    intro start st hm hc
    rw [doFFTLoop, dif_neg (by omega)]
    exact ⟨rfl, hc⟩
  | succ m ih =>
    intro start st hm hc
    by_cases hcond : start + F < te
    · rw [doFFTLoop, dif_pos hcond]
      dsimp only
      obtain ⟨hx1, hx2, hx3⟩ := fftFrameBodyStep_xfields RATE F O start st
      rw [createBinFrequencyData_self RATE F st hc] at hx1 hx2 hx3
      have hc' : xFreqConsistent RATE F (fftFrameBodyStep RATE F O start st) :=
        ⟨hx2.trans hc.1, hx3.trans hc.2⟩
      obtain ⟨ih1, ih2⟩ := ih (start + F - O) (fftFrameBodyStep RATE F O start st)
        (by omega) hc'
      exact ⟨ih1.trans hx1, ih2⟩
    · rw [doFFTLoop, dif_neg hcond]
      exact ⟨rfl, hc⟩

lemma doFFT_xInv (RATE : ℕ) (F O minFrame : ℤ) (hF : 0 < F) (hFO : O < F)
    (st : FFTStreamState) (h : xFreqInv RATE F st) :
    xFreqInv RATE F (doFFT RATE F O minFrame hF hFO st).1 := by
  have hl := doFFTLoop_xInv_aux RATE F O
    ((st.nSampleStream - st.fftActiveStart) - minFrame * F) hF hFO
    (((st.nSampleStream - st.fftActiveStart) - minFrame * F) -
      max (st.fftActiveStart - O) 0).toNat
    (max (st.fftActiveStart - O) 0) st le_rfl h
  obtain ⟨d1, d2, d3, _, _, d6, _⟩ :=
    dropRedundantSamples_fields F minFrame
      (doFFTLoopPhase RATE F O minFrame hF hFO st).1
  exact xFreqInv_of_fields_eq RATE F _ _ d1 d2 d3 d6 hl

lemma doFFT_consistent (RATE : ℕ) (F O minFrame : ℤ) (hF : 0 < F) (hFO : O < F)
    (st : FFTStreamState) (hc : xFreqConsistent RATE F st) :
    (doFFT RATE F O minFrame hF hFO st).1.xFreq = st.xFreq ∧
    xFreqConsistent RATE F (doFFT RATE F O minFrame hF hFO st).1 := by
  have hl := doFFTLoop_consistent_aux RATE F O
    ((st.nSampleStream - st.fftActiveStart) - minFrame * F) hF hFO
    (((st.nSampleStream - st.fftActiveStart) - minFrame * F) -
      max (st.fftActiveStart - O) 0).toNat
    (max (st.fftActiveStart - O) 0) st le_rfl hc
  obtain ⟨d1, d2, d3, _, _, _, _⟩ :=
    dropRedundantSamples_fields F minFrame
      (doFFTLoopPhase RATE F O minFrame hF hFO st).1
  exact ⟨d1.trans hl.1, ⟨d2.trans hl.2.1, d3.trans hl.2.2⟩⟩

lemma runFFTOp_xInv (RATE : ℕ) (F O minFrame batchFFTDuration : ℤ) (hF : 0 < F)
    (hFO : O < F) (st : FFTStreamState) (op : FFTStreamOp) (h : xFreqInv RATE F st) :
    xFreqInv RATE F (runFFTOp RATE F O minFrame batchFFTDuration hF hFO st op).1 := by
  cases op with
  | append k =>
    rw [runFFTOp, addFFTStreamSamples]
    have h1 : xFreqInv RATE F (appendSamplesOnly k st) :=
      xFreqInv_of_fields_eq RATE F st _ rfl rfl rfl rfl h
    split_ifs with hc
    · exact doFFT_xInv RATE F O minFrame hF hFO _ h1
    · exact h1
  | process => exact doFFT_xInv RATE F O minFrame hF hFO st h
  | drain =>
    rw [runFFTOp, fftDataDrain]
    exact xFreqInv_of_fields_eq RATE F _ _ rfl rfl rfl rfl
      (doFFT_xInv RATE F O minFrame hF hFO st h)

lemma runFFTOp_consistent (RATE : ℕ) (F O minFrame batchFFTDuration : ℤ)
    (hF : 0 < F) (hFO : O < F) (st : FFTStreamState) (op : FFTStreamOp)
    (hc : xFreqConsistent RATE F st) :
    (runFFTOp RATE F O minFrame batchFFTDuration hF hFO st op).1.xFreq = st.xFreq ∧
    xFreqConsistent RATE F
      (runFFTOp RATE F O minFrame batchFFTDuration hF hFO st op).1 := by
  cases op with
  | append k =>
    rw [runFFTOp, addFFTStreamSamples]
    have hc1 : xFreqConsistent RATE F (appendSamplesOnly k st) := hc
    split_ifs with hcond
    · exact doFFT_consistent RATE F O minFrame hF hFO _ hc1
    · exact ⟨rfl, hc1⟩
  | process => exact doFFT_consistent RATE F O minFrame hF hFO st hc
  | drain =>
    rw [runFFTOp, fftDataDrain]
    obtain ⟨h1, h2⟩ := doFFT_consistent RATE F O minFrame hF hFO st hc
    exact ⟨h1, h2⟩

lemma runFFTOps_xInv (RATE : ℕ) (F O minFrame batchFFTDuration : ℤ) (hF : 0 < F)
    (hFO : O < F) :
    ∀ (ops : List FFTStreamOp) (st : FFTStreamState), xFreqInv RATE F st →
      xFreqInv RATE F (runFFTOps RATE F O minFrame batchFFTDuration hF hFO ops st) := by
  intro ops
  induction ops with
  | nil => intro st h; exact h
  | cons op rest ih =>
    intro st h
    exact ih _ (runFFTOp_xInv RATE F O minFrame batchFFTDuration hF hFO st op h)

lemma runFFTOps_consistent (RATE : ℕ) (F O minFrame batchFFTDuration : ℤ)
    (hF : 0 < F) (hFO : O < F) :
    ∀ (ops : List FFTStreamOp) (st : FFTStreamState), xFreqConsistent RATE F st →
      (runFFTOps RATE F O minFrame batchFFTDuration hF hFO ops st).xFreq = st.xFreq ∧
      xFreqConsistent RATE F
        (runFFTOps RATE F O minFrame batchFFTDuration hF hFO ops st) := by
  intro ops
  induction ops with
  | nil => intro st h; exact ⟨rfl, h⟩
  | cons op rest ih =>
    intro st h
    obtain ⟨h1, h2⟩ := runFFTOp_consistent RATE F O minFrame batchFFTDuration hF hFO st op h
    obtain ⟨g1, g2⟩ := ih _ h2
    exact ⟨g1.trans h1, g2⟩

/-- C10: fft_freqs returns no table before the first FFT transform has
been performed since construction (in particular on the preset state);
once a table exists it is the one built for the current frame size and
rate, it persists across any further operations (appends, processing
passes and drains), and a drain via fft_data resets the magnitude sum
and the transform count but never clears the frequency table. -/
theorem c10_theorem (RATE : ℕ) (F O minFrame batchFFTDuration : ℤ)
    (hF : 0 < F) (hFO : O < F) (ops : List FFTStreamOp) :
    fft_freqs (initFFTStreamState F) = none ∧
    ((runFFTOps RATE F O minFrame batchFFTDuration hF hFO ops
        (initFFTStreamState F)).totalTransforms = 0 →
      fft_freqs (runFFTOps RATE F O minFrame batchFFTDuration hF hFO ops
        (initFFTStreamState F)) = none) ∧
    (fft_freqs (runFFTOps RATE F O minFrame batchFFTDuration hF hFO ops
        (initFFTStreamState F)) ≠ none →
      fft_freqs (runFFTOps RATE F O minFrame batchFFTDuration hF hFO ops
        (initFFTStreamState F)) = some (F / 2 + 1, RATE)) ∧
    (∀ moreOps : List FFTStreamOp,
      fft_freqs (runFFTOps RATE F O minFrame batchFFTDuration hF hFO ops
        (initFFTStreamState F)) ≠ none →
      fft_freqs (runFFTOps RATE F O minFrame batchFFTDuration hF hFO moreOps
        (runFFTOps RATE F O minFrame batchFFTDuration hF hFO ops
          (initFFTStreamState F))) =
        fft_freqs (runFFTOps RATE F O minFrame batchFFTDuration hF hFO ops
          (initFFTStreamState F))) ∧
    (∀ st : FFTStreamState,
      fft_freqs (fftDataDrain RATE F O minFrame hF hFO st).1 =
        fft_freqs (doFFT RATE F O minFrame hF hFO st).1 ∧
      (fftDataDrain RATE F O minFrame hF hFO st).1.accumFFTSums = 0 ∧
      (fftDataDrain RATE F O minFrame hF hFO st).1.fftSumPresent = false) := by
  have hInit : xFreqInv RATE F (initFFTStreamState F) := ⟨fun _ => rfl, Or.inl rfl⟩
  have hInv := runFFTOps_xInv RATE F O minFrame batchFFTDuration hF hFO ops
    (initFFTStreamState F) hInit
  refine ⟨rfl, fun h0 => hInv.1 h0, fun hne => ?_, fun moreOps hne => ?_, fun st => ⟨rfl, rfl, rfl⟩⟩
  · rcases hInv.2 with hnone | ⟨hsome, _⟩
    · exact absurd hnone hne
    · exact hsome
  · rcases hInv.2 with hnone | ⟨hsome, hcons⟩
    · exact absurd hnone hne
    · obtain ⟨g1, _⟩ := runFFTOps_consistent RATE F O minFrame batchFFTDuration hF hFO
        moreOps _ hcons
      exact g1

/-- Witness for c10_theorem at concrete inputs. -/
theorem c10_witness :
    ((0 : ℤ) < 4 ∧ (2 : ℤ) < 4) ∧ fft_freqs (initFFTStreamState 4) = none :=
  ⟨⟨by decide, by decide⟩, (c10_theorem 1 4 2 1 0 (by decide) (by decide) []).1⟩

end QtMeter
